import Mathlib

/-!
Shallow embedding of the AIplanet workflow backend (`src/backend`) and proofs
about its model-selection policy, text chunking, web-search fallback, workflow
interpretation, context assembly and execution logging.

External effects (HTTP calls to the OpenAI / Gemini / SerpAPI / Brave APIs,
ChromaDB queries, database inserts) are modelled as explicit outcome
parameters of type `Except String _`: `Except.error e` stands for the call
raising a Python exception whose `str` is `e`, and `Except.ok v` stands for
the call returning `v`.
-/

namespace AIplanet

/-! ## `src/backend/services/llm_service.py` -/

/-- Mirror of the `response_data` dictionary built by
`LLMService.generate_response`. -/
structure GenerationResult where
  response : String
  model_used : String
  success : Bool
  error : String
  deriving Repr, DecidableEq

/-- Mirror of the availability flags computed in `LLMService.__init__` from
credential presence (`bool(os.getenv(...))`). -/
structure LLMService where
  openai_available : Bool
  gemini_available : Bool
  deriving Repr, DecidableEq

/-- Embedding of `LLMService.generate_response_openai`: the chat-completion
call either returns a string or raises, and the surrounding `try`/`except`
re-raises any exception with the prefix `OpenAI API error: `. -/
def generate_response_openai (call : Except String String) : Except String String :=
  match call with
  | .ok r => .ok r
  | .error e => .error ("OpenAI API error: " ++ e)

/-- Embedding of the inner loop of `LLMService.generate_response_gemini`: the
Gemini model names are tried in order, the first success is returned, and if
all attempts fail an `All Gemini models are unavailable` exception is raised. -/
def gemini_try_models : List (Except String String) → Except String String
  | [] => .error "All Gemini models are unavailable"
  | .ok r :: _ => .ok r
  | .error _ :: rest => gemini_try_models rest

/-- Embedding of `LLMService.generate_response_gemini`: the outer
`try`/`except` wraps any raised error with the prefix `Gemini API error: `;
a successful model response passes through unchanged. -/
def generate_response_gemini (models : List (Except String String)) :
    Except String String :=
  match gemini_try_models models with
  | .ok r => .ok r
  | .error e => .error ("Gemini API error: " ++ e)

/-- Embedding of `LLMService.generate_response`. The branch structure follows
the source: explicit `"openai"`/`"gemini"` requests require the matching
availability flag; `"auto"` tries OpenAI first (bare `except:` absorbing its
error) and falls back to Gemini; anything else raises
`Preferred model '...' not available`. The trailing `except Exception`
records the error message and `success = False` in `response_data`; no field
assigned before a raise survives, because in every branch `response` /
`model_used` / `success` are assigned only after the provider call returns. -/
def generate_response (svc : LLMService) (openaiCall : Except String String)
    (geminiModels : List (Except String String)) (preferred_model : String) :
    GenerationResult :=
  let body : Except String GenerationResult :=
    if preferred_model == "openai" && svc.openai_available then
      (generate_response_openai openaiCall).map
        fun r => { response := r, model_used := "openai", success := true, error := "" }
    else if preferred_model == "gemini" && svc.gemini_available then
      (generate_response_gemini geminiModels).map
        fun r => { response := r, model_used := "gemini", success := true, error := "" }
    else if preferred_model == "auto" then
      if svc.openai_available then
        match generate_response_openai openaiCall with
        | .ok r => .ok { response := r, model_used := "openai", success := true, error := "" }
        | .error _ =>
          if svc.gemini_available then
            (generate_response_gemini geminiModels).map
              fun r => { response := r, model_used := "gemini", success := true, error := "" }
          else .error "No LLM services available"
      else if svc.gemini_available then
        (generate_response_gemini geminiModels).map
          fun r => { response := r, model_used := "gemini", success := true, error := "" }
      else .error "No LLM services available"
    else
      .error ("Preferred model '" ++ preferred_model ++ "' not available")
  match body with
  | .ok rd => rd
  | .error e => { response := "", model_used := "", success := false, error := e }

/-- Helper: a string append whose left part is nonempty is nonempty. -/
theorem str_append_ne_empty (s t : String) (h : s.length ≠ 0) : s ++ t ≠ "" := by
  intro hc
  have hlen := congrArg String.length hc
  simp [String.length_append] at hlen
  exact h hlen.1

/-- Helper: the `Preferred model '...' not available` message is nonempty. -/
theorem preferred_error_ne_empty (p : String) :
    "Preferred model '" ++ p ++ "' not available" ≠ "" := by
  intro hc
  have hlen := congrArg String.length hc
  simp [String.length_append] at hlen
  exact absurd hlen.1.1 (by decide)

/-- C1: with `preferred_model = "auto"`, (1) an available OpenAI whose call
succeeds is used with `model_used = "openai"`; (2) if OpenAI's call raises and
Gemini is available and succeeds, Gemini's response is returned with
`model_used = "gemini"`, `success = true` and an empty error (OpenAI's error is
not surfaced); (3) if OpenAI is unavailable, Gemini is tried directly and its
failure is surfaced with `success = false`; (4) if neither provider is
available the result is `success = false` with error
`No LLM services available`. -/
theorem generate_response_auto_policy
    (ga : Bool) (oc : Except String String) (gm : List (Except String String))
    (r s e ge : String) :
    (oc = .ok r →
      generate_response ⟨true, ga⟩ oc gm "auto" = ⟨r, "openai", true, ""⟩) ∧
    (oc = .error e → generate_response_gemini gm = .ok s →
      generate_response ⟨true, true⟩ oc gm "auto" = ⟨s, "gemini", true, ""⟩) ∧
    (generate_response_gemini gm = .error ge →
      generate_response ⟨false, true⟩ oc gm "auto" = ⟨"", "", false, ge⟩) ∧
    (generate_response ⟨false, false⟩ oc gm "auto" =
      ⟨"", "", false, "No LLM services available"⟩) := by
  refine ⟨fun h1 => ?_, fun h1 h2 => ?_, fun h1 => ?_, ?_⟩ <;>
    simp_all [generate_response, generate_response_openai, Except.map]

/-- Witness for C1 at concrete inputs. -/
theorem generate_response_auto_policy_witness :
    generate_response ⟨true, true⟩ (Except.ok "hi") [] "auto" =
      ⟨"hi", "openai", true, ""⟩ :=
  (generate_response_auto_policy true (Except.ok "hi") [] "hi" "s" "e" "g").1 rfl

/-- C7: when `preferred_model` names an unavailable provider (e.g. `"openai"`
without the OpenAI credential) or an unrecognized provider, generation fails
immediately with the `Preferred model '...' not available` error, and the
result does not depend on either provider's call outcome — no provider is
called and no fallback occurs. -/
theorem generate_response_explicit_unavailable
    (svc : LLMService) (oc oc2 : Except String String)
    (gm gm2 : List (Except String String)) (p : String)
    (h1 : ¬ (p = "openai" ∧ svc.openai_available = true))
    (h2 : ¬ (p = "gemini" ∧ svc.gemini_available = true))
    (h3 : p ≠ "auto") :
    generate_response svc oc gm p =
      ⟨"", "", false, "Preferred model '" ++ p ++ "' not available"⟩ ∧
    generate_response svc oc gm p = generate_response svc oc2 gm2 p := by
  have hbody : ∀ (oc3 : Except String String) (gm3 : List (Except String String)),
      generate_response svc oc3 gm3 p =
        ⟨"", "", false, "Preferred model '" ++ p ++ "' not available"⟩ := by
    intro oc3 gm3
    simp only [generate_response]
    have e1 : (p == "openai" && svc.openai_available) = false := by
      rcases Bool.eq_false_or_eq_true svc.openai_available with h | h <;>
        simp_all [beq_iff_eq]
    have e2 : (p == "gemini" && svc.gemini_available) = false := by
      rcases Bool.eq_false_or_eq_true svc.gemini_available with h | h <;>
        simp_all [beq_iff_eq]
    have e3 : (p == "auto") = false := by simp [beq_iff_eq, h3]
    simp [e1, e2, e3]
  exact ⟨hbody oc gm, (hbody oc gm).trans (hbody oc2 gm2).symm⟩

/-- Witness for C7: `preferred_model = "openai"` with only Gemini available. -/
theorem generate_response_explicit_unavailable_witness :
    generate_response ⟨false, true⟩ (Except.ok "a") [Except.ok "g"] "openai" =
      ⟨"", "", false, "Preferred model 'openai' not available"⟩ ∧
    generate_response ⟨false, true⟩ (Except.ok "a") [Except.ok "g"] "openai" =
      generate_response ⟨false, true⟩ (Except.error "x") [] "openai" :=
  generate_response_explicit_unavailable ⟨false, true⟩ (Except.ok "a")
    (Except.error "x") [Except.ok "g"] [] "openai"
    (by decide) (by decide) (by decide)

/-- Gemini errors produced by `generate_response_gemini` are nonempty. -/
theorem generate_response_gemini_error_ne_empty
    (gm : List (Except String String)) (e : String)
    (h : generate_response_gemini gm = .error e) : e ≠ "" := by
  simp only [generate_response_gemini] at h
  rcases hg : gemini_try_models gm with ge | ge <;> rw [hg] at h
  · simp only [Except.error.injEq] at h
    subst h
    exact str_append_ne_empty "Gemini API error: " ge (by decide)
  · simp at h

/-- C9: `generate_response` never sets its fields inconsistently with the
`success` flag — a failed result has an empty response and a nonempty
human-readable error, and a successful result has an empty error. -/
theorem generate_response_consistency
    (svc : LLMService) (oc : Except String String)
    (gm : List (Except String String)) (p : String) :
    ((generate_response svc oc gm p).success = false →
      (generate_response svc oc gm p).response = "" ∧
      (generate_response svc oc gm p).error ≠ "") ∧
    ((generate_response svc oc gm p).success = true →
      (generate_response svc oc gm p).error = "") := by
  rcases svc with ⟨oa, ga⟩
  rcases hgm : generate_response_gemini gm with ge | gr <;>
    rcases hoc : oc with oe | orr <;>
      rcases oa with _ | _ <;> rcases ga with _ | _ <;>
        by_cases hp1 : p = "openai" <;> by_cases hp2 : p = "gemini" <;>
          by_cases hp3 : p = "auto" <;>
            simp_all [generate_response, generate_response_openai, Except.map,
              beq_iff_eq] <;>
              first
                | exact generate_response_gemini_error_ne_empty gm ge hgm
                | exact str_append_ne_empty "OpenAI API error: " oe (by decide)
                | exact preferred_error_ne_empty p

/-- Witness for C9 at a concrete failing input. -/
theorem generate_response_consistency_witness :
    (generate_response ⟨false, false⟩ (Except.ok "a") [] "auto").response = "" ∧
    (generate_response ⟨false, false⟩ (Except.ok "a") [] "auto").error ≠ "" :=
  (generate_response_consistency ⟨false, false⟩ (Except.ok "a") [] "auto").1
    (by decide)

/-! ## `src/backend/services/embeddings.py` — `split_text_into_chunks` -/

/-- Embedding of the `while start < len(text)` loop of
`split_text_into_chunks`, on the character list of the text. Each iteration
slices `text[start : start + chunk_size]`, advances
`start = (start + chunk_size) - overlap` and breaks once the new start
reaches the end. The `fuel` bound stands in for the loop's own termination
(the loop terminates whenever `overlap < chunk_size`, and the wrapper below
passes enough fuel for that case). -/
def chunkLoop (text : List Char) (chunk_size overlap : Nat) :
    Nat → Nat → List (List Char)
  | 0, _ => []
  | fuel + 1, start =>
    let chunk := (text.drop start).take chunk_size
    let nxt := start + chunk_size - overlap
    if nxt < text.length then chunk :: chunkLoop text chunk_size overlap fuel nxt
    else [chunk]

/-- Embedding of `split_text_into_chunks` on character lists: texts no longer
than `chunk_size` are returned whole as a one-element list, longer texts go
through the sliding-window loop starting at `start = 0`. -/
def split_text_into_chunks_chars (text : List Char) (chunk_size overlap : Nat) :
    List (List Char) :=
  if text.length ≤ chunk_size then [text]
  else chunkLoop text chunk_size overlap (text.length + 1) 0

/-- String-level wrapper of `split_text_into_chunks` (Python slicing on `str`
is character-based, mirrored here through `String.data`). -/
def split_text_into_chunks (text : String) (chunk_size overlap : Nat) :
    List String :=
  (split_text_into_chunks_chars text.data chunk_size overlap).map String.mk

/-- Formalisation of the claim's phrase "adjacent chunks share exactly
`overlap` characters": both chunks are at least `overlap` long and the last
`overlap` characters of the first equal the first `overlap` characters of the
second. -/
def sharesExactly (c₁ c₂ : List Char) (o : Nat) : Prop :=
  o ≤ c₁.length ∧ o ≤ c₂.length ∧ c₂.take o = c₁.drop (c₁.length - o)

instance (c₁ c₂ : List Char) (o : Nat) : Decidable (sharesExactly c₁ c₂ o) := by
  unfold sharesExactly
  infer_instance

/-- Index-wise description of the loop: given enough fuel, the `k`-th chunk is
the window of `chunk_size` characters at offset `start + k * (chunk_size -
overlap)`, for every such offset below the end of the text. -/
theorem chunkLoop_getElem (text : List Char) (c o : Nat) (ho : o < c) :
    ∀ (fuel start : Nat), start < text.length → text.length ≤ start + fuel →
    ∀ k, (chunkLoop text c o fuel start)[k]? =
      if start + k * (c - o) < text.length
      then some ((text.drop (start + k * (c - o))).take c)
      else none := by
  intro fuel
  induction fuel with
  | zero => intro start h1 h2 k; omega
  | succ n ih =>
    intro start h1 h2 k
    simp only [chunkLoop]
    by_cases hnxt : start + c - o < text.length
    · rw [if_pos hnxt]
      cases k with
      | zero =>
        simp only [List.getElem?_cons_zero, Nat.zero_mul, Nat.add_zero]
        rw [if_pos h1]
      | succ k =>
        rw [List.getElem?_cons_succ,
          ih (start + c - o) hnxt (by omega) k]
        have hmul : (k + 1) * (c - o) = k * (c - o) + (c - o) := Nat.succ_mul k (c - o)
        have harith : start + c - o + k * (c - o) = start + (k + 1) * (c - o) := by
          rw [hmul]; omega
        rw [harith]
    · rw [if_neg hnxt]
      cases k with
      | zero =>
        simp only [List.getElem?_cons_zero, Nat.zero_mul, Nat.add_zero]
        rw [if_pos h1]
      | succ k =>
        have hmul : (k + 1) * (c - o) = k * (c - o) + (c - o) := Nat.succ_mul k (c - o)
        rw [List.getElem?_cons_succ, List.getElem?_eq_none (by simp),
          if_neg (by omega)]

/-- Index-wise description of `split_text_into_chunks_chars` for texts longer
than `chunk_size`. -/
theorem split_text_into_chunks_chars_getElem (text : List Char) (c o : Nat)
    (ho : o < c) (hL : c < text.length) (k : Nat) :
    (split_text_into_chunks_chars text c o)[k]? =
      if k * (c - o) < text.length
      then some ((text.drop (k * (c - o))).take c)
      else none := by
  rw [split_text_into_chunks_chars, if_neg (by omega),
    chunkLoop_getElem text c o ho (text.length + 1) 0 (by omega) (by omega) k]
  simp

set_option maxRecDepth 20000 in
/-- C2 (amended): for `overlap < chunk_size` (required for the source loop to
terminate), a text of at most `chunk_size` characters is returned whole as
`[text]`; a longer text yields exactly the windows
`text[start : start + chunk_size]` at `start = 0, step, 2*step, ...` with
`step = chunk_size - overlap` (including a final partial window), no chunk is
empty, every character position is covered by some window (no gap), and
adjacent chunks share exactly `overlap` characters whenever the earlier chunk
is a full window not truncated by the end of the text — when the earlier chunk
is truncated, the later chunk is exactly the earlier one minus its first
`step` characters (sharing fewer than `overlap` characters). The claim's
concrete example holds: `"A"*1000 ++ "B"*500` with chunk size `1000` and
overlap `200` gives exactly the two chunks `"A"*1000` and
`"A"*200 ++ "B"*500` (the window at offset 800). -/
theorem split_text_into_chunks_spec (text : List Char) (c o : Nat) (ho : o < c) :
    (text.length ≤ c → split_text_into_chunks_chars text c o = [text]) ∧
    (c < text.length →
      (∀ k, (split_text_into_chunks_chars text c o)[k]? =
          if k * (c - o) < text.length
          then some ((text.drop (k * (c - o))).take c) else none) ∧
      (∀ ch ∈ split_text_into_chunks_chars text c o, ch ≠ []) ∧
      (∀ i < text.length, ∃ k, k * (c - o) < text.length ∧
          k * (c - o) ≤ i ∧ i < k * (c - o) + c) ∧
      (∀ k, (k + 1) * (c - o) < text.length →
        (k * (c - o) + c ≤ text.length →
          sharesExactly ((text.drop (k * (c - o))).take c)
            ((text.drop ((k + 1) * (c - o))).take c) o) ∧
        (text.length < k * (c - o) + c →
          (text.drop ((k + 1) * (c - o))).take c =
            ((text.drop (k * (c - o))).take c).drop (c - o)))) ∧
    split_text_into_chunks
        (String.mk (List.replicate 1000 'A' ++ List.replicate 500 'B')) 1000 200 =
      [String.mk (List.replicate 1000 'A'),
        String.mk (List.replicate 200 'A' ++ List.replicate 500 'B')] := by
  refine ⟨fun h => ?_, fun hL => ⟨?_, ?_, ?_, ?_⟩, ?_⟩
  · rw [split_text_into_chunks_chars, if_pos h]
  · exact fun k => split_text_into_chunks_chars_getElem text c o ho hL k
  · intro ch hch
    obtain ⟨i, hi, hgi⟩ := List.mem_iff_getElem.mp hch
    have h1 := split_text_into_chunks_chars_getElem text c o ho hL i
    rw [List.getElem?_eq_getElem hi, hgi] at h1
    by_cases hcond : i * (c - o) < text.length
    · rw [if_pos hcond, Option.some.injEq] at h1
      rw [h1]
      apply List.ne_nil_of_length_pos
      rw [List.length_take, List.length_drop]
      omega
    · rw [if_neg hcond] at h1
      simp at h1
  · intro i hiL
    have hs : 0 < c - o := by omega
    have hdm := Nat.div_add_mod i (c - o)
    have hml := Nat.mod_lt i hs
    have hcm : (i / (c - o)) * (c - o) = (c - o) * (i / (c - o)) :=
      Nat.mul_comm _ _
    refine ⟨i / (c - o), ?_, ?_, ?_⟩ <;> omega
  · intro k hk1
    have hmul : (k + 1) * (c - o) = k * (c - o) + (c - o) := Nat.succ_mul k (c - o)
    have hco : c - (c - o) = o := by omega
    constructor
    · intro hfull
      have hwklen : ((text.drop (k * (c - o))).take c).length = c := by
        rw [List.length_take, List.length_drop]; omega
      refine ⟨?_, ?_, ?_⟩
      · rw [hwklen]; exact Nat.le_of_lt ho
      · rw [List.length_take, List.length_drop]; omega
      · rw [hwklen, List.take_take, Nat.min_eq_left (Nat.le_of_lt ho),
          List.drop_take c (c - o), List.drop_drop, hco]
        rw [← hmul]
    · intro htr
      rw [List.drop_take c (c - o), List.drop_drop, hco]
      rw [← hmul]
      rw [List.take_of_length_le (by rw [List.length_drop]; omega),
        List.take_of_length_le (by rw [List.length_drop]; omega)]
  · decide

/-- C2 counterexample: at text `"ABCDEFGHIJKL"` with `chunk_size = 10` and
`overlap = 5`, the produced chunks are `["ABCDEFGHIJ", "FGHIJKL", "KL"]`, and
the adjacent chunks `"FGHIJKL"` / `"KL"` do not share exactly `overlap = 5`
characters (the final chunk has only 2). -/
theorem split_text_into_chunks_overlap_counterexample :
    split_text_into_chunks "ABCDEFGHIJKL" 10 5 = ["ABCDEFGHIJ", "FGHIJKL", "KL"] ∧
    ¬ sharesExactly (String.data "FGHIJKL") (String.data "KL") 5 := by
  exact ⟨by decide, by decide⟩

/-! ## `src/backend/services/web_search.py` -/

/-- Fields of one SerpAPI `organic_results` item, as rendered by
`serpapi_search` through the f-string `"{title}: {snippet} ({link})"`. -/
structure SerpItem where
  title : String
  snippet : String
  link : String
  deriving Repr, DecidableEq

/-- Rendering of one SerpAPI item. -/
def formatSerpItem (it : SerpItem) : String :=
  it.title ++ ": " ++ it.snippet ++ " (" ++ it.link ++ ")"

/-- Fields of one Brave `web.results` item, as rendered by `brave_search`
through the f-string `"{title}: {desc} ({url})"`. -/
structure BraveItem where
  title : String
  description : String
  url : String
  deriving Repr, DecidableEq

/-- Rendering of one Brave item. -/
def formatBraveItem (it : BraveItem) : String :=
  it.title ++ ": " ++ it.description ++ " (" ++ it.url ++ ")"

/-- Embedding of `serpapi_search`: raises when the SerpAPI key is unset in the
environment; otherwise the HTTP request / `raise_for_status` / JSON parse
either raises or yields the parsed `organic_results` item list, of which the
first `num_results` items are formatted in order. -/
def serpapi_search (keySet : Bool) (http : Except String (List SerpItem))
    (num_results : Nat) : Except String (List String) :=
  if !keySet then .error "SerpAPI key not set in environment."
  else http.map fun items => (items.take num_results).map formatSerpItem

/-- Embedding of `brave_search`, analogous to `serpapi_search`. -/
def brave_search (keySet : Bool) (http : Except String (List BraveItem))
    (num_results : Nat) : Except String (List String) :=
  if !keySet then .error "Brave API key not set in environment."
  else http.map fun items => (items.take num_results).map formatBraveItem

/-- Embedding of `web_search`: SerpAPI is tried first; any exception is
swallowed (printed only) and Brave is tried; if that also raises, the empty
list is returned. The function is total — it never raises to its caller. -/
def web_search (serpKeySet braveKeySet : Bool)
    (serpHttp : Except String (List SerpItem))
    (braveHttp : Except String (List BraveItem)) (num_results : Nat) :
    List String :=
  match serpapi_search serpKeySet serpHttp num_results with
  | .ok rs => rs
  | .error _ =>
    match brave_search braveKeySet braveHttp num_results with
    | .ok rs => rs
    | .error _ => []

/-- C6: `web_search` (a total function — it never raises) returns SerpAPI's
formatted results when that backend succeeds; on any SerpAPI exception the
error is fully swallowed and Brave's results are returned when Brave
succeeds; when both backends fail it returns the empty list; and in every
case the result holds at most `num_results` formatted strings. -/
theorem web_search_fallback (sk bk : Bool) (sh : Except String (List SerpItem))
    (bh : Except String (List BraveItem)) (n : Nat) (rs1 rs2 : List String)
    (e1 e2 : String) :
    (serpapi_search sk sh n = .ok rs1 → web_search sk bk sh bh n = rs1) ∧
    (serpapi_search sk sh n = .error e1 → brave_search bk bh n = .ok rs2 →
      web_search sk bk sh bh n = rs2) ∧
    (serpapi_search sk sh n = .error e1 → brave_search bk bh n = .error e2 →
      web_search sk bk sh bh n = []) ∧
    (web_search sk bk sh bh n).length ≤ n := by
  refine ⟨fun h1 => ?_, fun h1 h2 => ?_, fun h1 h2 => ?_, ?_⟩
  · rw [web_search, h1]
  · rw [web_search, h1, h2]
  · rw [web_search, h1, h2]
  · rw [web_search]
    have hlen : ∀ (rs : List String), serpapi_search sk sh n = .ok rs →
        rs.length ≤ n := by
      intro rs h
      rw [serpapi_search] at h
      rcases hk : (!sk) with _ | _ <;> rw [hk] at h <;> simp_all [Except.map]
      rcases sh with se | sitems <;> simp_all
      subst h
      simp [List.length_take]
    have hlen2 : ∀ (rs : List String), brave_search bk bh n = .ok rs →
        rs.length ≤ n := by
      intro rs h
      rw [brave_search] at h
      rcases hk : (!bk) with _ | _ <;> rw [hk] at h <;> simp_all [Except.map]
      rcases bh with be | bitems <;> simp_all
      subst h
      simp [List.length_take]
    rcases hs : serpapi_search sk sh n with se | srs
    · rcases hb : brave_search bk bh n with be | brs
      · simp
      · exact hlen2 brs hb
    · exact hlen srs hs

/-- Witness for C6: SerpAPI key missing, Brave HTTP call raising — the result
is the empty list. -/
theorem web_search_fallback_witness :
    web_search false true (Except.ok []) (Except.error "HTTP 500") 3 = [] :=
  (web_search_fallback false true (Except.ok []) (Except.error "HTTP 500") 3
      [] [] "SerpAPI key not set in environment."
      "HTTP 500").2.2.1 (by rfl) (by rfl)

/-! ## `src/backend/routes/workflow.py` — `run_workflow` and `log_execution` -/

/-- Mirror of a node dictionary as consumed by `run_workflow`:
`n.get('type')` is total (`none` when the key is absent), while
`llm_node['id']` raises `KeyError('id')` when the key is missing.
Presentation-only fields (`position`, `data`) are opaque to the interpreter
and omitted. -/
structure Node where
  id : Option String
  type : Option String
  deriving Repr, DecidableEq

/-- Mirror of an `llmEngine` node's config dictionary: each field is `none`
when the key is absent, matching `dict.get(key, default)`. The `temperature`
key is never read by `run_workflow` and is omitted. -/
structure LLMEngineConfig where
  useWebSearch : Option Bool
  model : Option String
  useKnowledgeBase : Option Bool
  maxContextChunks : Option Nat
  deriving Repr, DecidableEq

/-- Mirror of the workflow dictionary: `none` in a field models the absence
of the `'nodes'` / `'configs'` key checked by
`'nodes' in request.workflow and 'configs' in request.workflow`. -/
structure Workflow where
  nodes : Option (List Node)
  configs : Option (List (String × LLMEngineConfig))
  deriving Repr, DecidableEq

/-- Mirror of `WorkflowRunRequest` (the `temperature` field is passed through
to the provider call unexamined and is omitted). `workflow = none` models a
falsy/absent workflow dictionary. -/
structure WorkflowRunRequest where
  workflow : Option Workflow
  query : String
  preferred_model : String
  use_knowledge_base : Bool
  max_context_chunks : Nat
  deriving Repr, DecidableEq

/-- Mirror of `WorkflowRunResponse`. -/
structure WorkflowRunResponse where
  response : String
  model_used : String
  context_used : Option String
  success : Bool
  error : Option String
  deriving Repr, DecidableEq

/-- Mirror of one row inserted into `execution_logs` (the wall-clock
`execution_time` and `timestamp` columns carry no logical content and are
omitted). -/
structure ExecutionLogEntry where
  workflow_id : Option Nat
  query : String
  response : String
  model_used : String
  success : Bool
  error : Option String
  deriving Repr, DecidableEq

/-- Embedding of the `for n in request.workflow['nodes']` scan with
`if n.get('type') == 'llmEngine': ... break`: the first node whose type is
`llmEngine` is selected. -/
def find_llm_node : List Node → Option Node
  | [] => none
  | n :: rest => if n.type == some "llmEngine" then some n else find_llm_node rest

/-- Mirror of `request.workflow['configs'].get(node_id, {})`. -/
def lookup_config (cfgs : List (String × LLMEngineConfig)) (i : String) :
    LLMEngineConfig :=
  (cfgs.lookup i).getD ⟨none, none, none, none⟩

/-- Embedding of the config-extraction prefix of `run_workflow` (lines
guarded by `if request.workflow and 'nodes' in ... and 'configs' in ...`):
finds the first `llmEngine` node, reads `useWebSearch` (default `False`) and
`model` (default: the request's `preferred_model`) from its config.
`llm_node['id']` raises `KeyError('id')` — whose `str` is `'id'` with quotes,
modelled as the error string `\x27id\x27` — when the node has no id key. -/
def extract_llm_config (wf : Option Workflow) (preferred : String) :
    Except String (Bool × String) :=
  match wf with
  | some w =>
    match w.nodes, w.configs with
    | some ns, some cfgs =>
      match find_llm_node ns with
      | some n =>
        match n.id with
        | some i =>
          let cfg := lookup_config cfgs i
          .ok (cfg.useWebSearch.getD false, cfg.model.getD preferred)
        | none => .error "'id'"
      | none => .ok (false, preferred)
    | _, _ => .ok (false, preferred)
  | none => .ok (false, preferred)

/-- Embedding of the `for i, doc in enumerate(search_results['documents'][0])`
loop: each non-empty document (`if doc:`) is tagged
`Context {i+1}: {doc}` with `i` its 0-based position in the retrieved list;
empty documents are skipped but still consume their index. -/
def context_chunks_from (i : Nat) : List String → List String
  | [] => []
  | doc :: rest =>
    if doc ≠ "" then
      ("Context " ++ toString (i + 1) ++ ": " ++ doc) :: context_chunks_from (i + 1) rest
    else context_chunks_from (i + 1) rest

/-- Embedding of the knowledge-base block construction: tagged chunks joined
with blank lines when at least one exists (`if context_chunks:`), empty
string otherwise. -/
def context_from_docs (docs : List String) : String :=
  let context_chunks := context_chunks_from 0 docs
  if context_chunks ≠ [] then String.intercalate "\n\n" context_chunks else ""

/-- Embedding of the knowledge-base branch of `run_workflow`: when
`request.use_knowledge_base` holds, the `search_similar_chunks` outcome is
consulted; a raise is caught and printed (context stays empty), a falsy
result or missing/empty `documents` entry yields the empty context, and
otherwise the first documents list is formatted. -/
def kb_context (use_kb : Bool)
    (searchOutcome : Except String (Option (List (List String)))) : String :=
  if use_kb then
    match searchOutcome with
    | .error _ => ""
    | .ok none => ""
    | .ok (some []) => ""
    | .ok (some (docs :: _)) => context_from_docs docs
  else ""

/-- Embedding of the `f"Web Result {i+1}: {r}"` list comprehension over
`enumerate(web_results)` (no emptiness filter on individual results). -/
def web_blocks_from (i : Nat) : List String → List String
  | [] => []
  | r :: rest =>
    ("Web Result " ++ toString (i + 1) ++ ": " ++ r) :: web_blocks_from (i + 1) rest

/-- Embedding of the web-search block construction: `if web_results:` joined
with blank lines, empty string otherwise. -/
def web_results_block (web_results : List String) : String :=
  if web_results ≠ [] then String.intercalate "\n\n" (web_blocks_from 0 web_results)
  else ""

/-- Embedding of the context combination:
`full_context = (context + "\n\n" + web_context) if context else web_context`
when `web_context` is truthy, else `context`. -/
def combine_contexts (context web_context : String) : String :=
  if web_context ≠ "" then
    (if context ≠ "" then context ++ "\n\n" ++ web_context else web_context)
  else context

/-- Embedding of `log_execution`: the database insert is attempted and any
exception is caught inside the function (`except Exception as e: print(...)`),
so the call always returns normally. -/
def log_execution (dbInsert : ExecutionLogEntry → Except String Unit)
    (entry : ExecutionLogEntry) : Except String Unit :=
  match dbInsert entry with
  | .ok _ => .ok ()
  | .error _ => .ok ()

/-- Outcomes of the external collaborators consulted by one `run_workflow`
request: provider availability, the two LLM call outcomes, the
`search_similar_chunks` outcome as a function of `n_results`, the web-search
backends, and the execution-log insert. -/
structure RunEnv where
  svc : LLMService
  openaiCall : Except String String
  geminiModels : List (Except String String)
  kbSearch : Nat → Except String (Option (List (List String)))
  serpKeySet : Bool
  serpHttp : Except String (List SerpItem)
  braveKeySet : Bool
  braveHttp : Except String (List BraveItem)
  dbInsert : ExecutionLogEntry → Except String Unit

/-- Result of one `run_workflow` request: the HTTP-level outcome
(`Except.error d` models `HTTPException(500, detail=d)`) together with the
entries passed to `log_execution`, in order. -/
structure RunOutcome where
  result : Except String WorkflowRunResponse
  log_entries : List ExecutionLogEntry
  deriving Repr

/-- Embedding of `run_workflow`. Inside the `try`, the only statement that
can raise in this model is `llm_node['id']` during config extraction
(`search_similar_chunks` and `web_search` raises are absorbed locally, and
`generate_response` catches internally). On the normal path the knowledge
base is consulted iff `request.use_knowledge_base`, web search iff the node
config's `useWebSearch`, the two context blocks are combined, generation runs
with the selected model, and one entry is logged with the result's fields and
`workflow_id = None`; if `log_execution` could raise, the `except` path would
log a second failure entry and answer HTTP 500, but `log_execution` always
returns normally. The `except` path logs one failure entry (empty response,
`model_used = "unknown"`, the caught message) and raises
`HTTPException(500, "Workflow execution error: ...")`. -/
def run_workflow (req : WorkflowRunRequest) (env : RunEnv) : RunOutcome :=
  match extract_llm_config req.workflow req.preferred_model with
  | .error e =>
    let entry : ExecutionLogEntry := ⟨none, req.query, "", "unknown", false, some e⟩
    { result := .error ("Workflow execution error: " ++ e), log_entries := [entry] }
  | .ok (use_web_search, selected_model) =>
    let context := kb_context req.use_knowledge_base (env.kbSearch req.max_context_chunks)
    let web_context :=
      if use_web_search then
        web_results_block
          (web_search env.serpKeySet env.braveKeySet env.serpHttp env.braveHttp 3)
      else ""
    let full_context := combine_contexts context web_context
    let result := generate_response env.svc env.openaiCall env.geminiModels selected_model
    let entry : ExecutionLogEntry :=
      ⟨none, req.query, result.response, result.model_used, result.success,
        some result.error⟩
    match log_execution env.dbInsert entry with
    | .error e2 =>
      let entry2 : ExecutionLogEntry := ⟨none, req.query, "", "unknown", false, some e2⟩
      { result := .error ("Workflow execution error: " ++ e2),
        log_entries := [entry, entry2] }
    | .ok _ =>
      { result := .ok ⟨result.response, result.model_used,
          (if full_context ≠ "" then some full_context else none),
          result.success, some result.error⟩,
        log_entries := [entry] }

/-- Helper: `log_execution` always returns normally. -/
theorem log_execution_ok (dbInsert : ExecutionLogEntry → Except String Unit)
    (entry : ExecutionLogEntry) : log_execution dbInsert entry = .ok () := by
  rw [log_execution]
  rcases dbInsert entry with e | u
  · rfl
  · rfl

/-- Helper: with no provider available, generation always fails, whatever the
requested model. -/
theorem generate_response_none_available (oc : Except String String)
    (gm : List (Except String String)) (p : String) :
    (generate_response ⟨false, false⟩ oc gm p).success = false := by
  simp only [generate_response, Bool.and_false]
  by_cases hp : (p == "auto") = true <;> simp [hp]

/-- C3: every workflow run emits exactly one `ExecutionLogEntry` — on the
normal path carrying the generation result's response, model, success flag
and error, on the exception path carrying an empty response,
`model_used = "unknown"`, `success = false` and the caught error message —
and `workflow_id` is always `null`; in particular with neither LLM provider
available the single entry has `success = false`. -/
theorem run_workflow_logs_once (req : WorkflowRunRequest) (env : RunEnv) :
    (run_workflow req env).log_entries.length = 1 ∧
    (∀ en ∈ (run_workflow req env).log_entries, en.workflow_id = none) ∧
    (∀ resp, (run_workflow req env).result = .ok resp →
      (run_workflow req env).log_entries =
        [⟨none, req.query, resp.response, resp.model_used, resp.success,
          resp.error⟩]) ∧
    (∀ e, extract_llm_config req.workflow req.preferred_model = .error e →
      (run_workflow req env).result = .error ("Workflow execution error: " ++ e) ∧
      (run_workflow req env).log_entries =
        [⟨none, req.query, "", "unknown", false, some e⟩]) ∧
    (env.svc = ⟨false, false⟩ →
      ∃ en, (run_workflow req env).log_entries = [en] ∧ en.success = false) := by
  have hlog := log_execution_ok env.dbInsert
  rcases hx : extract_llm_config req.workflow req.preferred_model with e | p
  · refine ⟨by simp [run_workflow, hx], by simp [run_workflow, hx], ?_, ?_, ?_⟩
    · intro resp h
      simp [run_workflow, hx] at h
    · intro e2 h2
      injection h2 with h3
      subst h3
      exact ⟨by simp [run_workflow, hx], by simp [run_workflow, hx]⟩
    · intro hsvc
      exact ⟨⟨none, req.query, "", "unknown", false, some e⟩,
        by simp [run_workflow, hx], rfl⟩
  · obtain ⟨uw, sm⟩ := p
    refine ⟨by simp [run_workflow, hx, hlog], by simp [run_workflow, hx, hlog],
      ?_, ?_, ?_⟩
    · intro resp h
      simp only [run_workflow, hx, hlog] at h ⊢
      injection h with h4
      subst h4
      simp
    · intro e2 h2
      exact Except.noConfusion h2
    · intro hsvc
      refine ⟨⟨none, req.query,
        (generate_response env.svc env.openaiCall env.geminiModels sm).response,
        (generate_response env.svc env.openaiCall env.geminiModels sm).model_used,
        (generate_response env.svc env.openaiCall env.geminiModels sm).success,
        some (generate_response env.svc env.openaiCall env.geminiModels sm).error⟩,
        by simp [run_workflow, hx, hlog], ?_⟩
      simp [hsvc, generate_response_none_available]

/-- C10: the execution-log writer swallows its own failures — `log_execution`
returns normally for every insert outcome, and both the HTTP result and the
logged entries of a workflow run are unchanged when the log-sink insert
behaves differently (e.g. raises). -/
theorem log_execution_swallows (db1 db2 : ExecutionLogEntry → Except String Unit)
    (entry : ExecutionLogEntry) (req : WorkflowRunRequest) (env : RunEnv) :
    log_execution db1 entry = .ok () ∧
    run_workflow req { env with dbInsert := db1 } =
      run_workflow req { env with dbInsert := db2 } := by
  refine ⟨log_execution_ok db1 entry, ?_⟩
  rcases hx : extract_llm_config req.workflow req.preferred_model with e | ⟨uw, sm⟩ <;>
    simp [run_workflow, hx, log_execution_ok]

/-- Helper: a raised vector-index query leaves the knowledge-base context
empty, whatever the request-level flag. -/
theorem kb_context_error (u : Bool) (m : String) :
    kb_context u (.error m) = "" := by
  rcases u with _ | _ <;> rfl

/-- Helper: combining an empty knowledge-base context with a web context
yields the web context. -/
theorem combine_contexts_empty_left (w : String) : combine_contexts "" w = w := by
  rw [combine_contexts]
  by_cases hw : w ≠ "" <;> simp [hw]
  exact (not_ne_iff.mp hw).symm

/-- C5: if the vector-index query raises during context assembly, the
workflow run does not fail — with the config extracted normally and the
selected provider succeeding, the run still answers `success = true`, and
`context_used` reflects only the web-search block (`null` when web search is
disabled or its block is empty). -/
theorem run_workflow_kb_soft_fail (req : WorkflowRunRequest) (env : RunEnv)
    (msg : String) (uw : Bool) (sm : String)
    (hkb : env.kbSearch req.max_context_chunks = .error msg)
    (hex : extract_llm_config req.workflow req.preferred_model = .ok (uw, sm))
    (hgen : (generate_response env.svc env.openaiCall env.geminiModels sm).success
      = true) :
    ∃ resp, (run_workflow req env).result = Except.ok resp ∧
      resp.success = true ∧
      resp.context_used =
        (if (if uw then web_results_block
              (web_search env.serpKeySet env.braveKeySet env.serpHttp
                env.braveHttp 3)
            else "") ≠ ""
         then some (if uw then web_results_block
              (web_search env.serpKeySet env.braveKeySet env.serpHttp
                env.braveHttp 3)
            else "")
         else none) := by
  simp only [run_workflow, hex, log_execution_ok]
  refine ⟨_, rfl, ?_, ?_⟩
  · exact hgen
  · simp only [hkb, kb_context_error, combine_contexts_empty_left]

/-- Witness for C5 at a concrete environment whose vector index raises. -/
theorem run_workflow_kb_soft_fail_witness :
    ∃ resp,
      (run_workflow ⟨none, "q", "auto", true, 3⟩
        ⟨⟨true, true⟩, Except.ok "hi", [], fun _ => Except.error "down",
          false, Except.ok [], false, Except.ok [],
          fun _ => Except.ok ()⟩).result = Except.ok resp ∧
      resp.success = true ∧
      resp.context_used =
        (if (if false then web_results_block
              (web_search false false (Except.ok []) (Except.ok []) 3)
            else "") ≠ ""
         then some (if false then web_results_block
              (web_search false false (Except.ok []) (Except.ok []) 3)
            else "")
         else none) :=
  run_workflow_kb_soft_fail ⟨none, "q", "auto", true, 3⟩
    ⟨⟨true, true⟩, Except.ok "hi", [], fun _ => Except.error "down",
      false, Except.ok [], false, Except.ok [], fun _ => Except.ok ()⟩
    "down" false "auto" rfl rfl (by decide)

/-- Helper: the node scan returns the first node typed `llmEngine`. -/
theorem find_llm_node_append (pre : List Node) (n : Node) (post : List Node)
    (hpre : ∀ m ∈ pre, ¬ m.type = some "llmEngine")
    (hn : n.type = some "llmEngine") :
    find_llm_node (pre ++ n :: post) = some n := by
  induction pre with
  | nil => simp [find_llm_node, hn]
  | cons a as ih =>
    have ha := hpre a (List.mem_cons_self a as)
    rw [List.cons_append, find_llm_node, if_neg (by simp [ha])]
    exact ih fun m hm => hpre m (List.mem_cons_of_mem a hm)

/-- Field replacement used to state that the per-node `useKnowledgeBase` and
`maxContextChunks` entries are dead: both are overwritten arbitrarily,
`useWebSearch` and `model` are kept. -/
def cfg_set_kb_fields (c : LLMEngineConfig) (kb : Option Bool)
    (mc : Option Nat) : LLMEngineConfig :=
  ⟨c.useWebSearch, c.model, kb, mc⟩

/-- Helper: `List.lookup` commutes with a key-dependent rewrite of the
values. -/
theorem lookup_map_values (cfgs : List (String × LLMEngineConfig)) (i : String)
    (h : String → LLMEngineConfig → LLMEngineConfig) :
    (cfgs.map fun p => (p.1, h p.1 p.2)).lookup i =
      (cfgs.lookup i).map (h i) := by
  induction cfgs with
  | nil => rfl
  | cons a as ih =>
    rw [List.map_cons]
    by_cases hi : (i == a.1) = true
    · have : i = a.1 := eq_of_beq hi
      subst this
      simp [List.lookup]
    · simp [List.lookup, hi, ih]

/-- C4: config extraction scans the node list and uses the first node typed
`llmEngine`: with its id found in `configs`, the extracted pair is the
config's `useWebSearch` with default `false` and the config's `model`
overriding the request-level preference when present; replacing every
config's `useKnowledgeBase` / `maxContextChunks` entries arbitrarily does not
change extraction; and knowledge-base retrieval is driven only by the
request-level fields — a run with `use_knowledge_base = false` ignores the
vector-search outcome entirely, and any run consults it only at
`n_results = request.max_context_chunks`. -/
theorem run_workflow_config_extraction
    (pre post : List Node) (n : Node) (cfgs : List (String × LLMEngineConfig))
    (i pm : String) (ns : Option (List Node)) (req : WorkflowRunRequest)
    (env : RunEnv) (f : String → Option Bool) (g : String → Option Nat)
    (k1 k2 : Nat → Except String (Option (List (List String))))
    (hpre : ∀ m ∈ pre, ¬ m.type = some "llmEngine")
    (hn : n.type = some "llmEngine") (hid : n.id = some i) :
    (extract_llm_config (some ⟨some (pre ++ n :: post), some cfgs⟩) pm =
      .ok ((lookup_config cfgs i).useWebSearch.getD false,
        (lookup_config cfgs i).model.getD pm)) ∧
    ((lookup_config cfgs i).useWebSearch = none →
      ∀ m, (lookup_config cfgs i).model = some m →
        extract_llm_config (some ⟨some (pre ++ n :: post), some cfgs⟩) pm =
          .ok (false, m)) ∧
    ((lookup_config cfgs i).model = none →
      (extract_llm_config
          (some ⟨some (pre ++ n :: post), some cfgs⟩) pm).map Prod.snd =
        .ok pm) ∧
    (extract_llm_config
        (some ⟨ns, some (cfgs.map fun p =>
          (p.1, cfg_set_kb_fields p.2 (f p.1) (g p.1)))⟩) pm =
      extract_llm_config (some ⟨ns, some cfgs⟩) pm) ∧
    (req.use_knowledge_base = false →
      run_workflow req { env with kbSearch := k1 } =
        run_workflow req { env with kbSearch := k2 }) ∧
    (k1 req.max_context_chunks = k2 req.max_context_chunks →
      run_workflow req { env with kbSearch := k1 } =
        run_workflow req { env with kbSearch := k2 }) := by
  have hfind := find_llm_node_append pre n post hpre hn
  have hmain : extract_llm_config (some ⟨some (pre ++ n :: post), some cfgs⟩) pm =
      .ok ((lookup_config cfgs i).useWebSearch.getD false,
        (lookup_config cfgs i).model.getD pm) := by
    simp [extract_llm_config, hfind, hid]
  refine ⟨hmain, ?_, ?_, ?_, ?_, ?_⟩
  · intro h1 m h2
    rw [hmain, h1, h2]
    rfl
  · intro h1
    rw [hmain, h1]
    rfl
  · rcases ns with _ | ns
    · rfl
    · rcases hf : find_llm_node ns with _ | n2
      · simp [extract_llm_config, hf]
      · rcases hn2 : n2.id with _ | i2
        · simp [extract_llm_config, hf, hn2]
        · have hmap := lookup_map_values cfgs i2
            fun s c => cfg_set_kb_fields c (f s) (g s)
          simp only [extract_llm_config, hf, hn2, lookup_config, hmap]
          rcases hl : cfgs.lookup i2 with _ | c
          · rfl
          · rfl
  · intro hukb
    rcases hx : extract_llm_config req.workflow req.preferred_model with e | ⟨uw, sm⟩ <;>
      simp [run_workflow, hx, log_execution_ok, kb_context, hukb]
  · intro hk
    rcases hx : extract_llm_config req.workflow req.preferred_model with e | ⟨uw, sm⟩ <;>
      simp [run_workflow, hx, log_execution_ok, hk]

/-- Witness for C4 at a concrete workflow definition. -/
theorem run_workflow_config_extraction_witness :
    extract_llm_config
        (some ⟨some [⟨some "u1", some "userQuery"⟩, ⟨some "llm1", some "llmEngine"⟩],
          some [("llm1", ⟨some true, some "gemini", some false, some 7⟩)]⟩)
        "auto" =
      .ok ((lookup_config
          [("llm1", ⟨some true, some "gemini", some false, some 7⟩)]
          "llm1").useWebSearch.getD false,
        (lookup_config
          [("llm1", ⟨some true, some "gemini", some false, some 7⟩)]
          "llm1").model.getD "auto") :=
  (run_workflow_config_extraction [⟨some "u1", some "userQuery"⟩] []
    ⟨some "llm1", some "llmEngine"⟩
    [("llm1", ⟨some true, some "gemini", some false, some 7⟩)] "llm1" "auto"
    none ⟨none, "q", "auto", true, 3⟩
    ⟨⟨true, true⟩, Except.ok "hi", [], fun _ => Except.ok none, false,
      Except.ok [], false, Except.ok [], fun _ => Except.ok ()⟩
    (fun _ => none) (fun _ => none)
    (fun _ => Except.ok none) (fun _ => Except.ok none)
    (by decide) (by decide) (by decide)).1

/-- Reference tagger for the amended C8: every retrieved document is tagged
`Context {position+1}: {text}` with no emptiness filter (this is what the
claim's formatting rule prescribes). -/
def context_tags_all_from (i : Nat) : List String → List String
  | [] => []
  | d :: rest =>
    ("Context " ++ toString (i + 1) ++ ": " ++ d) ::
      context_tags_all_from (i + 1) rest

/-- Helper: when no document is empty, the source's filtered tagging agrees
with the unfiltered reference tagging. -/
theorem context_chunks_from_eq_tags (l : List String) : ∀ i, (∀ d ∈ l, d ≠ "") →
    context_chunks_from i l = context_tags_all_from i l := by
  induction l with
  | nil => intro i h; rfl
  | cons d rest ih =>
    intro i h
    rw [context_chunks_from, context_tags_all_from,
      if_pos (h d (List.mem_cons_self d rest)),
      ih (i + 1) fun m hm => h m (List.mem_cons_of_mem d hm)]

/-- Helper: index-wise reading of the reference tagging. -/
theorem context_tags_all_from_getElem (l : List String) : ∀ i k,
    (context_tags_all_from i l)[k]? =
      (l[k]?).map fun d => "Context " ++ toString (i + k + 1) ++ ": " ++ d := by
  induction l with
  | nil => intro i k; simp [context_tags_all_from]
  | cons d rest ih =>
    intro i k
    cases k with
    | zero => simp [context_tags_all_from]
    | succ k =>
      rw [context_tags_all_from, List.getElem?_cons_succ, ih (i + 1) k,
        List.getElem?_cons_succ, show i + 1 + k = i + (k + 1) by omega]

/-- Helper: index-wise reading of the web-result tagging. -/
theorem web_blocks_from_getElem (l : List String) : ∀ i k,
    (web_blocks_from i l)[k]? =
      (l[k]?).map fun r => "Web Result " ++ toString (i + k + 1) ++ ": " ++ r := by
  induction l with
  | nil => intro i k; simp [web_blocks_from]
  | cons r rest ih =>
    intro i k
    cases k with
    | zero => simp [web_blocks_from]
    | succ k =>
      rw [web_blocks_from, List.getElem?_cons_succ, ih (i + 1) k,
        List.getElem?_cons_succ, show i + 1 + k = i + (k + 1) by omega]

/-- Helper: for an arbitrary retrieved list (mixed emptiness included), the
source's tagging equals the unfiltered position tagging zipped with the
documents and filtered on document non-emptiness — each kept tag carries the
position of its document in the full retrieved list, so empty documents are
dropped but still consume their index. -/
theorem context_chunks_from_eq_zip_filter (docs : List String) : ∀ i,
    context_chunks_from i docs =
      ((context_tags_all_from i docs).zip docs).filterMap
        (fun p => if p.2 = "" then none else some p.1) := by
  induction docs with
  | nil => intro i; rfl
  | cons d rest ih =>
    intro i
    rw [context_chunks_from, context_tags_all_from]
    by_cases hd : d = ""
    · simp only [List.zip_cons_cons, List.filterMap_cons, hd]
      simp [ih (i + 1)]
    · simp only [List.zip_cons_cons, List.filterMap_cons]
      simp [hd, ih (i + 1)]

/-- C8 (amended): each *non-empty* retrieved knowledge-base chunk is
formatted as `Context {1-based position in the retrieved list}: {text}`
(empty chunks are dropped by the `if doc:` guard while still consuming their
index — for arbitrary mixed-emptiness input the produced tags are exactly the
position tags of the non-empty documents, e.g. `["", "foo"]` yields
`Context 2: foo`), the tags joined by blank lines; each web result — with no
emptiness filter — is formatted as `Web Result {1-based index}: {snippet}`
joined by blank lines; the two blocks are concatenated with a blank-line
separator when both are non-empty, either alone is used verbatim and two
empty blocks give the empty context; and the claim's example holds: chunks
`["foo", "bar"]` with web results `["baz"]` combine to
`"Context 1: foo\n\nContext 2: bar\n\nWeb Result 1: baz"`. -/
theorem context_formatting_spec (docs webrs : List String) (c w : String) :
    ((∀ d ∈ docs, d ≠ "") → docs ≠ [] →
      context_from_docs docs =
        String.intercalate "\n\n" (context_tags_all_from 0 docs)) ∧
    (∀ k, (context_tags_all_from 0 docs)[k]? =
      (docs[k]?).map fun d => "Context " ++ toString (k + 1) ++ ": " ++ d) ∧
    (context_chunks_from 0 docs =
      ((context_tags_all_from 0 docs).zip docs).filterMap
        (fun p => if p.2 = "" then none else some p.1)) ∧
    context_from_docs ["", "foo"] = "Context 2: foo" ∧
    (∀ k, (web_blocks_from 0 webrs)[k]? =
      (webrs[k]?).map fun r => "Web Result " ++ toString (k + 1) ++ ": " ++ r) ∧
    web_results_block [] = "" ∧
    combine_contexts c "" = c ∧
    combine_contexts "" w = w ∧
    (c ≠ "" → w ≠ "" → combine_contexts c w = c ++ "\n\n" ++ w) ∧
    combine_contexts (context_from_docs ["foo", "bar"])
        (web_results_block ["baz"]) =
      "Context 1: foo\n\nContext 2: bar\n\nWeb Result 1: baz" := by
  refine ⟨?_, ?_, context_chunks_from_eq_zip_filter docs 0, by decide, ?_, rfl,
    ?_, combine_contexts_empty_left w, ?_, by decide⟩
  · intro h hne
    rw [context_from_docs, context_chunks_from_eq_tags docs 0 h]
    rcases docs with _ | ⟨d, rest⟩
    · exact absurd rfl hne
    · rw [if_pos (by simp [context_tags_all_from])]
  · intro k
    simpa using context_tags_all_from_getElem docs 0 k
  · intro k
    simpa using web_blocks_from_getElem webrs 0 k
  · simp [combine_contexts]
  · intro hc hw
    simp [combine_contexts, hc, hw]

/-- C8 counterexample: an empty retrieved chunk is skipped by the `if doc:`
guard, so with the single retrieved chunk `""` and no web results the
combined context is `""` and not `"Context 1: "` as the claim's formatting
rule dictates. -/
theorem context_formatting_counterexample :
    combine_contexts (context_from_docs [""]) (web_results_block []) = "" ∧
    combine_contexts (context_from_docs [""]) (web_results_block []) ≠
      "Context 1: " := ⟨by decide, by decide⟩

/-- Witness for the amended C2 at a concrete short text. -/
theorem split_text_into_chunks_spec_witness :
    split_text_into_chunks_chars (String.data "ABCDEF") 10 5 =
      [String.data "ABCDEF"] :=
  (split_text_into_chunks_spec (String.data "ABCDEF") 10 5 (by decide)).1
    (by decide)

/-- Witness for C3 at a concrete environment with no provider available. -/
theorem run_workflow_logs_once_witness :
    ∃ en,
      (run_workflow ⟨none, "q", "auto", true, 3⟩
        ⟨⟨false, false⟩, Except.ok "a", [], fun _ => Except.ok none, false,
          Except.ok [], false, Except.ok [], fun _ => Except.ok ()⟩).log_entries =
        [en] ∧ en.success = false :=
  (run_workflow_logs_once ⟨none, "q", "auto", true, 3⟩
    ⟨⟨false, false⟩, Except.ok "a", [], fun _ => Except.ok none, false,
      Except.ok [], false, Except.ok [], fun _ => Except.ok ()⟩).2.2.2.2 rfl

/-- Witness for the amended C8 at concrete contexts. -/
theorem context_formatting_spec_witness :
    combine_contexts "a" "b" = "a" ++ "\n\n" ++ "b" :=
  (context_formatting_spec [] [] "a" "b").2.2.2.2.2.2.2.2.1 (by decide)
    (by decide)

end AIplanet
